import Mathlib

/-!
Shallow embedding of the Redux-Toolkit example application's state-transition
core: the counters slice (src/unnamed/part_002, `counterSlice`), the posts
slice (src/redux-toolkit-example/src/features/counter/postSlice.js), and the
store composition (src/unnamed/part_003, `configureStore`).

JavaScript numbers used as counter values and ids are modelled as `Int`
(all operations here are exact integer arithmetic).  A reducer that throws a
runtime `TypeError` (reading a property of `undefined`) is modelled as
returning `none`; a reducer that cannot throw is a total function.
-/

namespace ReduxToolkitExample

/-- One entry of the counters region: `{ id, value }` (part_002 lines 3-12). -/
structure Counter where
  id : Int
  value : Int
deriving DecidableEq

/-- The initial counters region from part_002:
`[{ id: 1, value: 0 }, { id: 2, value: 0 }]`. -/
def initialCounters : List Counter :=
  [⟨1, 0⟩, ⟨2, 0⟩]

/-- `counterSlice.reducers.increment` (part_002 lines 18-21):
`const counterIndex = state.findIndex(c => c.id === action.payload.id);
 state[counterIndex].value++;`
`findIndex` returns the index of the first entry whose id matches, or `-1`
when none matches; in the latter case `state[-1]` is `undefined` and
`undefined.value++` throws a `TypeError`, modelled as `none`. -/
def counterIncrement : List Counter → Int → Option (List Counter)
  | [], _ => none
  | c :: rest, k =>
    if c.id = k then some ({ c with value := c.value + 1 } :: rest)
    else (counterIncrement rest k).map (fun r => c :: r)

/-- `counterSlice.reducers.decrement` (part_002 lines 22-25), identical to
`increment` except for `state[counterIndex].value--`. -/
def counterDecrement : List Counter → Int → Option (List Counter)
  | [], _ => none
  | c :: rest, k =>
    if c.id = k then some ({ c with value := c.value - 1 } :: rest)
    else (counterDecrement rest k).map (fun r => c :: r)

/-- One fetched record; the app only ever reads `id` and `title`
(part_004 lines 20-22). -/
structure Post where
  id : Int
  title : String
deriving DecidableEq

/-- The posts region state (postSlice.js lines 4-9):
`{ posts: [], isLoading: false, isError: false, error: '' }`. -/
structure PostState where
  posts : List Post
  isLoading : Bool
  isError : Bool
  error : String
deriving DecidableEq

/-- `initialState` of postSlice.js lines 4-9. -/
def postInitialState : PostState :=
  { posts := [], isLoading := false, isError := false, error := "" }

/-- `fetchPosts.pending` case (postSlice.js lines 22-26):
`state.isLoading = true; state.isError = false; state.error = '';`. -/
def pendingReducer (s : PostState) : PostState :=
  { s with isLoading := true, isError := false, error := "" }

/-- `fetchPosts.fulfilled` case (postSlice.js lines 27-30):
`state.isLoading = false; state.posts = action.payload;`
(note: `isError` and `error` are NOT touched). -/
def fulfilledReducer (payload : List Post) (s : PostState) : PostState :=
  { s with isLoading := false, posts := payload }

/-- `fetchPosts.rejected` case (postSlice.js lines 31-35):
`state.isLoading = false; state.isError = true; state.error = action.error.message;`. -/
def rejectedReducer (message : String) (s : PostState) : PostState :=
  { s with isLoading := false, isError := true, error := message }

/-- The status vocabulary of the spec's Async Resource Region. -/
inductive Status where
  | idle
  | loading
  | succeeded
  | failed
deriving DecidableEq

/-- Status abstraction of the posts region's flag fields.  The code stores no
status tag; this is the reading the UI itself applies (part_004 lines 17-20:
render "Loading" when `isLoading`, else "Error" when `isError`, else render the
items), matching the spec's `status` vocabulary.  The code's fields cannot
distinguish `idle` from `succeeded`, so both map to `succeeded`. -/
def specStatus (s : PostState) : Status :=
  if s.isLoading then Status.loading
  else if s.isError then Status.failed
  else Status.succeeded

/-- The action families dispatched in this app: the two counter actions
(`counters/increment`, `counters/decrement`, payload `{ id }`), the three
`posts/fetchPosts` lifecycle actions generated by `createAsyncThunk`, and any
action whose kind neither slice recognizes. -/
inductive Action where
  | increment (id : Int)
  | decrement (id : Int)
  | fetchPending
  | fetchFulfilled (payload : List Post)
  | fetchRejected (message : String)
  | unknown (kind : String)
deriving DecidableEq

/-- The counters slice reducer built by `createSlice` (part_002 lines 14-27):
dispatches on the action kind, returning the state unchanged for any action
the slice does not recognize. -/
def countersReducer (s : List Counter) : Action → Option (List Counter)
  | Action.increment k => counterIncrement s k
  | Action.decrement k => counterDecrement s k
  | _ => some s

/-- The posts slice reducer built by `createSlice` (postSlice.js lines 18-37):
the three `extraReducers` cases, identity on any other action. -/
def postsReducer (s : PostState) : Action → PostState
  | Action.fetchPending => pendingReducer s
  | Action.fetchFulfilled p => fulfilledReducer p s
  | Action.fetchRejected m => rejectedReducer m s
  | _ => s

/-- The whole-store snapshot assembled by `configureStore` (part_003 lines
5-10): region `counters` from counterReducer, region `posts` from postReducer. -/
structure RootState where
  counters : List Counter
  posts : PostState
deriving DecidableEq

/-- The composed top-level transition of `configureStore`: every action is
routed to both region reducers, each threading its own region.  A throw in the
counters reducer aborts the whole dispatch (`none`); the posts reducer never
throws. -/
def rootTransition (s : RootState) (a : Action) : Option RootState :=
  (countersReducer s.counters a).map
    (fun cs => { counters := cs, posts := postsReducer s.posts a })

/-- `true` exactly for the actions the counters slice recognizes. -/
def targetsCounters : Action → Bool
  | Action.increment _ => true
  | Action.decrement _ => true
  | _ => false

/-- `true` exactly for the actions the posts slice recognizes. -/
def targetsPosts : Action → Bool
  | Action.fetchPending => true
  | Action.fetchFulfilled _ => true
  | Action.fetchRejected _ => true
  | _ => false

/-- Folding a sequence of dispatched actions over the posts region. -/
def runPosts (s : PostState) : List Action → PostState
  | [] => s
  | a :: rest => runPosts (postsReducer s a) rest

/-- `true` when every rejected action in the list carries a non-empty
message. -/
def nonEmptyRejects : List Action → Bool
  | [] => true
  | Action.fetchRejected m :: rest => (m != "") && nonEmptyRejects rest
  | _ :: rest => nonEmptyRejects rest

/-- Outcome of `fetch` plus `response.json()` seen by the thunk body
(postSlice.js lines 13-14): either the fetch itself throws (`Except.error`),
or it yields a response carrying an HTTP status code and a `json()` outcome
(parsed data, or a parse error). -/
structure HttpResponse where
  statusCode : Nat
  jsonResult : Except String (List Post)

/-- The `response.ok` flag of the fetch API: status in the 200-299 range.
The thunk body never consults it. -/
def responseOk (r : HttpResponse) : Bool :=
  decide (200 ≤ r.statusCode) && decide (r.statusCode < 300)

/-- The `fetchPosts` thunk body (postSlice.js lines 12-16):
`const response = await fetch(url); const data = await response.json();
 return data;` — propagate a fetch failure, otherwise return whatever
`json()` produces, without inspecting the status code. -/
def fetchPostsBody : Except String HttpResponse → Except String (List Post)
  | Except.error e => Except.error e
  | Except.ok response => response.jsonResult

/-- The `createAsyncThunk` orchestration around one invocation of
`fetchPosts` as it acts on the posts region: dispatch `pending`, run the body,
then dispatch `fulfilled` with the data on success or `rejected` with the
error message on failure. -/
def runFetchPosts (fr : Except String HttpResponse) (s : PostState) : PostState :=
  match fetchPostsBody fr with
  | Except.ok data => fulfilledReducer data (pendingReducer s)
  | Except.error e => rejectedReducer e (pendingReducer s)

/-! ### Helper lemmas -/

/-- Replacing the entry with id `k` is the identity on a list none of whose
entries has id `k`. -/
lemma map_setValue_eq_self (k w : Int) (l : List Counter)
    (h : ∀ c ∈ l, c.id ≠ k) :
    (l.map fun c => if c.id = k then Counter.mk k w else c) = l := by
  induction l with
  | nil => rfl
  | cons c rest ih =>
    rw [List.map_cons, if_neg (h c (List.mem_cons_self c rest)),
      ih (fun d hd => h d (List.mem_cons_of_mem c hd))]

/-- On a duplicate-free region containing `⟨k, v⟩`, `increment` succeeds and
replaces exactly that entry by `⟨k, v + 1⟩`. -/
lemma counterIncrement_mem (r : List Counter) (k v : Int)
    (hmem : Counter.mk k v ∈ r) (hnodup : (r.map Counter.id).Nodup) :
    counterIncrement r k =
      some (r.map fun c => if c.id = k then Counter.mk k (v + 1) else c) := by
  induction r with
  | nil => cases hmem
  | cons c rest ih =>
    rw [List.map_cons, List.nodup_cons] at hnodup
    by_cases hck : c.id = k
    · have hc : Counter.mk k v = c := by
        rcases List.mem_cons.mp hmem with h | h
        · exact h
        · have hkmem : k ∈ rest.map Counter.id := List.mem_map_of_mem Counter.id h
          rw [hck] at hnodup
          exact absurd hkmem hnodup.1
      have hrest : ∀ d ∈ rest, d.id ≠ k := by
        intro d hd hdk
        rw [hck] at hnodup
        exact hnodup.1 (hdk ▸ List.mem_map_of_mem Counter.id hd)
      subst hc
      simp [counterIncrement, List.map_cons, map_setValue_eq_self k (v + 1) rest hrest]
    · have hmem2 : Counter.mk k v ∈ rest := by
        rcases List.mem_cons.mp hmem with h | h
        · exact absurd (congrArg Counter.id h.symm) hck
        · exact h
      simp only [counterIncrement, if_neg hck, ih hmem2 hnodup.2, Option.map_some',
        List.map_cons]

/-- On a duplicate-free region containing `⟨k, v⟩`, `decrement` succeeds and
replaces exactly that entry by `⟨k, v - 1⟩`. -/
lemma counterDecrement_mem (r : List Counter) (k v : Int)
    (hmem : Counter.mk k v ∈ r) (hnodup : (r.map Counter.id).Nodup) :
    counterDecrement r k =
      some (r.map fun c => if c.id = k then Counter.mk k (v - 1) else c) := by
  induction r with
  | nil => cases hmem
  | cons c rest ih =>
    rw [List.map_cons, List.nodup_cons] at hnodup
    by_cases hck : c.id = k
    · have hc : Counter.mk k v = c := by
        rcases List.mem_cons.mp hmem with h | h
        · exact h
        · have hkmem : k ∈ rest.map Counter.id := List.mem_map_of_mem Counter.id h
          rw [hck] at hnodup
          exact absurd hkmem hnodup.1
      have hrest : ∀ d ∈ rest, d.id ≠ k := by
        intro d hd hdk
        rw [hck] at hnodup
        exact hnodup.1 (hdk ▸ List.mem_map_of_mem Counter.id hd)
      subst hc
      simp [counterDecrement, List.map_cons, map_setValue_eq_self k (v - 1) rest hrest]
    · have hmem2 : Counter.mk k v ∈ rest := by
        rcases List.mem_cons.mp hmem with h | h
        · exact absurd (congrArg Counter.id h.symm) hck
        · exact h
      simp only [counterDecrement, if_neg hck, ih hmem2 hnodup.2, Option.map_some',
        List.map_cons]

/-- A successful `increment` preserves the ids, position by position. -/
lemma counterIncrement_ids (r : List Counter) (k : Int) (r2 : List Counter)
    (h : counterIncrement r k = some r2) :
    r2.map Counter.id = r.map Counter.id := by
  induction r generalizing r2 with
  | nil => exact Option.noConfusion h
  | cons c rest ih =>
    simp only [counterIncrement] at h
    by_cases hck : c.id = k
    · rw [if_pos hck, Option.some.injEq] at h
      subst h
      rfl
    · rw [if_neg hck] at h
      cases hc : counterIncrement rest k with
      | none => rw [hc] at h; exact Option.noConfusion h
      | some t =>
        rw [hc, Option.map_some', Option.some.injEq] at h
        subst h
        rw [List.map_cons, List.map_cons, ih t hc]

/-- A successful `decrement` preserves the ids, position by position. -/
lemma counterDecrement_ids (r : List Counter) (k : Int) (r2 : List Counter)
    (h : counterDecrement r k = some r2) :
    r2.map Counter.id = r.map Counter.id := by
  induction r generalizing r2 with
  | nil => exact Option.noConfusion h
  | cons c rest ih =>
    simp only [counterDecrement] at h
    by_cases hck : c.id = k
    · rw [if_pos hck, Option.some.injEq] at h
      subst h
      rfl
    · rw [if_neg hck] at h
      cases hc : counterDecrement rest k with
      | none => rw [hc] at h; exact Option.noConfusion h
      | some t =>
        rw [hc, Option.map_some', Option.some.injEq] at h
        subst h
        rw [List.map_cons, List.map_cons, ih t hc]

/-- `specStatus` is `failed` exactly when `isError` holds, for any state in
which `isLoading` implies `¬ isError`. -/
lemma specStatus_failed_iff (s : PostState)
    (h2 : s.isLoading = true → s.isError = false) :
    (specStatus s = Status.failed ↔ s.isError = true) := by
  cases hl : s.isLoading with
  | true =>
    have he := h2 hl
    simp [specStatus, hl, he]
  | false =>
    cases he : s.isError with
    | true => simp [specStatus, hl, he]
    | false => simp [specStatus, hl, he]

/-- The two flag-field facts preserved by every dispatch whose rejected
messages are non-empty: the error string is non-empty exactly when `isError`
is set, and a loading state never has `isError` set. -/
lemma runPosts_flags_invariant (acts : List Action) (s : PostState)
    (hr : nonEmptyRejects acts = true)
    (h1 : s.error ≠ "" ↔ s.isError = true)
    (h2 : s.isLoading = true → s.isError = false) :
    ((runPosts s acts).error ≠ "" ↔ (runPosts s acts).isError = true) ∧
    ((runPosts s acts).isLoading = true → (runPosts s acts).isError = false) := by
  induction acts generalizing s with
  | nil => exact ⟨h1, h2⟩
  | cons a rest ih =>
    cases a with
    | increment k => exact ih (postsReducer s (Action.increment k)) hr h1 h2
    | decrement k => exact ih (postsReducer s (Action.decrement k)) hr h1 h2
    | unknown n => exact ih (postsReducer s (Action.unknown n)) hr h1 h2
    | fetchPending =>
      refine ih (postsReducer s Action.fetchPending) hr ?_ ?_
      · simp [postsReducer, pendingReducer]
      · simp [postsReducer, pendingReducer]
    | fetchFulfilled p =>
      refine ih (postsReducer s (Action.fetchFulfilled p)) hr ?_ ?_
      · simpa [postsReducer, fulfilledReducer] using h1
      · simp [postsReducer, fulfilledReducer]
    | fetchRejected m =>
      simp only [nonEmptyRejects, Bool.and_eq_true, bne_iff_ne] at hr
      refine ih (postsReducer s (Action.fetchRejected m)) hr.2 ?_ ?_
      · simp [postsReducer, rejectedReducer, hr.1]
      · simp [postsReducer, rejectedReducer]

/-! ### Claim theorems -/

/-- Claim C1, counterexample: on the initial region (ids 1 and 2), the id 3 is
absent, and both `increment` and `decrement` with id 3 throw (`none`) rather
than return the region unchanged. -/
theorem lookupMiss_counterexample :
    (∀ c ∈ initialCounters, c.id ≠ 3) ∧
    counterIncrement initialCounters 3 = none ∧
    counterDecrement initialCounters 3 = none := by decide

/-- Claim C1, amended: when no entry of the region has id `k`, the
`increment` and `decrement` transitions do not return the region unchanged —
`findIndex` yields `-1` and reading `state[-1].value` throws a `TypeError`,
modelled here as `none`. -/
theorem lookupMiss_throws (r : List Counter) (k : Int)
    (h : ∀ c ∈ r, c.id ≠ k) :
    counterIncrement r k = none ∧ counterDecrement r k = none := by
  induction r with
  | nil => exact ⟨rfl, rfl⟩
  | cons c rest ih =>
    have hc := h c (List.mem_cons_self c rest)
    have ht := ih (fun d hd => h d (List.mem_cons_of_mem c hd))
    simp [counterIncrement, counterDecrement, hc, ht.1, ht.2]

/-- Claim C1 witness: the amended statement at the initial region with the
missing id 3. -/
theorem lookupMiss_throws_witness :
    counterIncrement initialCounters 3 = none ∧
    counterDecrement initialCounters 3 = none :=
  lookupMiss_throws initialCounters 3 (by decide)

/-- Claim C2, counterexample: from a failed prior state (`isError = true`,
`error = "boom"`), the fulfilled transition replaces the items but leaves the
error flag and message set, so the resulting region's status is `failed`,
not `succeeded`. -/
theorem fulfilled_after_failed_counterexample :
    specStatus (fulfilledReducer [Post.mk 1 "a"]
      { posts := [], isLoading := false, isError := true, error := "boom" }) ≠
        Status.succeeded ∧
    (fulfilledReducer [Post.mk 1 "a"]
      { posts := [], isLoading := false, isError := true, error := "boom" }).error =
        "boom" := by decide

/-- Claim C2, amended: for every prior state, the fulfilled transition
replaces `items` with the payload verbatim and clears `isLoading`, but leaves
`isError` and `error` untouched; consequently the resulting status is
`succeeded` when the prior error flag is clear (idle, loading, or succeeded),
while from a failed prior state the error flag and message persist and the
status remains `failed`. -/
theorem fulfilled_replaces_items (s : PostState) (p : List Post) :
    (fulfilledReducer p s).posts = p ∧
    (fulfilledReducer p s).isLoading = false ∧
    (fulfilledReducer p s).isError = s.isError ∧
    (fulfilledReducer p s).error = s.error ∧
    (s.isError = false → specStatus (fulfilledReducer p s) = Status.succeeded) ∧
    (s.isError = true → specStatus (fulfilledReducer p s) = Status.failed) := by
  refine ⟨rfl, rfl, rfl, rfl, fun h => ?_, fun h => ?_⟩
  · simp [fulfilledReducer, specStatus, h]
  · simp [fulfilledReducer, specStatus, h]

/-- Claim C2 witness: the amended statement exercised at the initial posts
state (error flag clear, status `succeeded`) and at a failed state with
message `"boom"` (status stays `failed` and the message persists). -/
theorem fulfilled_replaces_items_witness :
    (fulfilledReducer [Post.mk 1 "a"] postInitialState).posts = [Post.mk 1 "a"] ∧
    specStatus (fulfilledReducer [Post.mk 1 "a"] postInitialState) =
      Status.succeeded ∧
    specStatus (fulfilledReducer [Post.mk 1 "a"]
      { posts := [], isLoading := false, isError := true, error := "boom" }) =
        Status.failed ∧
    (fulfilledReducer [Post.mk 1 "a"]
      { posts := [], isLoading := false, isError := true, error := "boom" }).error =
        ({ posts := [], isLoading := false, isError := true, error := "boom" } :
          PostState).error :=
  ⟨(fulfilled_replaces_items postInitialState [Post.mk 1 "a"]).1,
    (fulfilled_replaces_items postInitialState [Post.mk 1 "a"]).2.2.2.2.1 rfl,
    (fulfilled_replaces_items
      { posts := [], isLoading := false, isError := true, error := "boom" }
      [Post.mk 1 "a"]).2.2.2.2.2 rfl,
    (fulfilled_replaces_items
      { posts := [], isLoading := false, isError := true, error := "boom" }
      [Post.mk 1 "a"]).2.2.2.1⟩

/-- Claim C3, counterexample: rejecting with an empty message reaches a state
whose status is `failed` while the error message is empty (not present),
violating the claimed equivalence. -/
theorem emptyRejectMessage_counterexample :
    specStatus (runPosts postInitialState [Action.fetchRejected ""]) =
      Status.failed ∧
    (runPosts postInitialState [Action.fetchRejected ""]).error = "" := by decide

/-- Claim C3, amended: in every posts-region state reachable from the initial
state by pending/fulfilled/rejected transitions in which every rejected
transition carries a non-empty message, the error message is non-empty exactly
when the region's status is `failed`. -/
theorem errorMessage_iff_failed (acts : List Action)
    (hr : nonEmptyRejects acts = true) :
    ((runPosts postInitialState acts).error ≠ "" ↔
      specStatus (runPosts postInitialState acts) = Status.failed) := by
  have h := runPosts_flags_invariant acts postInitialState hr
    (by simp [postInitialState]) (by simp [postInitialState])
  exact h.1.trans (specStatus_failed_iff (runPosts postInitialState acts) h.2).symm

/-- Claim C3 witness: the amended statement on the run
pending, rejected with message `"boom"`. -/
theorem errorMessage_iff_failed_witness :
    nonEmptyRejects [Action.fetchPending, Action.fetchRejected "boom"] = true ∧
    ((runPosts postInitialState
        [Action.fetchPending, Action.fetchRejected "boom"]).error ≠ "" ↔
      specStatus (runPosts postInitialState
        [Action.fetchPending, Action.fetchRejected "boom"]) = Status.failed) :=
  ⟨by decide, errorMessage_iff_failed
    [Action.fetchPending, Action.fetchRejected "boom"] (by decide)⟩

/-- Claim C4: from any prior state, pending-then-fulfilled yields status
`succeeded` with items equal to the payload; pending-then-rejected yields
status `failed` with the rejected message as error and items unchanged;
pending itself leaves items unchanged and clears the error message. -/
theorem pending_then_settle (s : PostState) (X : List Post) (m : String) :
    specStatus (postsReducer (postsReducer s Action.fetchPending)
      (Action.fetchFulfilled X)) = Status.succeeded ∧
    (postsReducer (postsReducer s Action.fetchPending)
      (Action.fetchFulfilled X)).posts = X ∧
    specStatus (postsReducer (postsReducer s Action.fetchPending)
      (Action.fetchRejected m)) = Status.failed ∧
    (postsReducer (postsReducer s Action.fetchPending)
      (Action.fetchRejected m)).error = m ∧
    (postsReducer (postsReducer s Action.fetchPending)
      (Action.fetchRejected m)).posts = s.posts ∧
    (postsReducer s Action.fetchPending).posts = s.posts ∧
    (postsReducer s Action.fetchPending).error = "" := by
  simp [postsReducer, pendingReducer, fulfilledReducer, rejectedReducer, specStatus]

/-- Claim C5: an action of unrecognized kind is the identity for the counters
reducer, the posts reducer, and the composed store transition (which in
particular raises no error). -/
theorem unrecognized_kind_identity (s : RootState) (kind : String) :
    countersReducer s.counters (Action.unknown kind) = some s.counters ∧
    postsReducer s.posts (Action.unknown kind) = s.posts ∧
    rootTransition s (Action.unknown kind) = some s :=
  ⟨rfl, rfl, rfl⟩

/-- Claim C6: on a duplicate-free region containing an entry with id `k` and
value `v`, `increment{k}` succeeds and yields the same region except that
entry is `⟨k, v + 1⟩`, and `decrement{k}` yields `⟨k, v - 1⟩`; all other
entries are unchanged and no lower bound is enforced. -/
theorem increment_decrement_hit (r : List Counter) (k v : Int)
    (hmem : Counter.mk k v ∈ r) (hnodup : (r.map Counter.id).Nodup) :
    counterIncrement r k =
      some (r.map fun c => if c.id = k then Counter.mk k (v + 1) else c) ∧
    counterDecrement r k =
      some (r.map fun c => if c.id = k then Counter.mk k (v - 1) else c) :=
  ⟨counterIncrement_mem r k v hmem hnodup, counterDecrement_mem r k v hmem hnodup⟩

/-- Claim C6 witness: on a one-entry region at value 0, increment yields 1 and
decrement yields -1 (no lower bound). -/
theorem increment_decrement_hit_witness :
    counterIncrement [Counter.mk 1 0] 1 = some [Counter.mk 1 1] ∧
    counterDecrement [Counter.mk 1 0] 1 = some [Counter.mk 1 (-1)] := by
  have h := increment_decrement_hit [Counter.mk 1 0] 1 0 (by decide) (by decide)
  exact ⟨h.1.trans (by decide), h.2.trans (by decide)⟩

/-- Claim C7: whenever the composed transition produces a snapshot, a region
not targeted by the action is unchanged — counter actions leave the posts
region untouched, fetch lifecycle actions leave the counters region
untouched. -/
theorem untargeted_regions_unchanged (s s2 : RootState) (a : Action)
    (h : rootTransition s a = some s2) :
    (targetsCounters a = false → s2.counters = s.counters) ∧
    (targetsPosts a = false → s2.posts = s.posts) := by
  cases a with
  | increment k =>
    refine ⟨fun hf => by simp [targetsCounters] at hf, fun _ => ?_⟩
    simp only [rootTransition, countersReducer] at h
    cases hc : counterIncrement s.counters k with
    | none => rw [hc] at h; exact Option.noConfusion h
    | some cs =>
      rw [hc, Option.map_some', Option.some.injEq] at h
      rw [← h]
      rfl
  | decrement k =>
    refine ⟨fun hf => by simp [targetsCounters] at hf, fun _ => ?_⟩
    simp only [rootTransition, countersReducer] at h
    cases hc : counterDecrement s.counters k with
    | none => rw [hc] at h; exact Option.noConfusion h
    | some cs =>
      rw [hc, Option.map_some', Option.some.injEq] at h
      rw [← h]
      rfl
  | fetchPending =>
    refine ⟨fun _ => ?_, fun hf => by simp [targetsPosts] at hf⟩
    simp only [rootTransition, countersReducer, Option.map_some',
      Option.some.injEq] at h
    rw [← h]
  | fetchFulfilled p =>
    refine ⟨fun _ => ?_, fun hf => by simp [targetsPosts] at hf⟩
    simp only [rootTransition, countersReducer, Option.map_some',
      Option.some.injEq] at h
    rw [← h]
  | fetchRejected m =>
    refine ⟨fun _ => ?_, fun hf => by simp [targetsPosts] at hf⟩
    simp only [rootTransition, countersReducer, Option.map_some',
      Option.some.injEq] at h
    rw [← h]
  | unknown n =>
    simp only [rootTransition, countersReducer, Option.map_some',
      Option.some.injEq] at h
    exact ⟨fun _ => by rw [← h], fun _ => by rw [← h]; rfl⟩

/-- Claim C7 witness: incrementing counter 1 from the initial snapshot leaves
the posts region untouched. -/
theorem untargeted_regions_unchanged_witness :
    (RootState.mk [Counter.mk 1 1, Counter.mk 2 0] postInitialState).posts =
      (RootState.mk initialCounters postInitialState).posts :=
  (untargeted_regions_unchanged (RootState.mk initialCounters postInitialState)
    (RootState.mk [Counter.mk 1 1, Counter.mk 2 0] postInitialState)
    (Action.increment 1) (by decide)).2 (by decide)

/-- Claim C8: the fulfilled transition is idempotent — applying it twice with
the same payload yields the same region value as applying it once. -/
theorem fulfilled_idempotent (s : PostState) (X : List Post) :
    fulfilledReducer X (fulfilledReducer X s) = fulfilledReducer X s := rfl

/-- Claim C9: every counter transition that returns a region preserves the
region's length and the ids of all entries, in order. -/
theorem transitions_preserve_ids (r r2 : List Counter) (k : Int)
    (h : counterIncrement r k = some r2 ∨ counterDecrement r k = some r2) :
    r2.map Counter.id = r.map Counter.id ∧ r2.length = r.length := by
  have hids : r2.map Counter.id = r.map Counter.id := by
    cases h with
    | inl h => exact counterIncrement_ids r k r2 h
    | inr h => exact counterDecrement_ids r k r2 h
  refine ⟨hids, ?_⟩
  have hlen := congrArg List.length hids
  simpa using hlen

/-- Claim C9 witness: incrementing counter 1 on the initial region preserves
the id list and the length. -/
theorem transitions_preserve_ids_witness :
    [Counter.mk 1 1, Counter.mk 2 0].map Counter.id =
      initialCounters.map Counter.id ∧
    ([Counter.mk 1 1, Counter.mk 2 0] : List Counter).length =
      initialCounters.length :=
  transitions_preserve_ids initialCounters [Counter.mk 1 1, Counter.mk 2 0] 1
    (Or.inl (by decide))

/-- Claim C10: the thunk body succeeds with the parsed data whenever the fetch
completes and its body parses, rejects with the fetch error when the fetch
throws, rejects with the parse error when parsing throws, and never consults
the HTTP status code (so a non-2xx response still leads to fulfilled). -/
theorem fetch_no_ok_check (fr : Except String HttpResponse) (s : PostState) :
    (∀ resp data, fr = Except.ok resp → resp.jsonResult = Except.ok data →
      runFetchPosts fr s = fulfilledReducer data (pendingReducer s)) ∧
    (∀ e, fr = Except.error e →
      runFetchPosts fr s = rejectedReducer e (pendingReducer s)) ∧
    (∀ resp e, fr = Except.ok resp → resp.jsonResult = Except.error e →
      runFetchPosts fr s = rejectedReducer e (pendingReducer s)) ∧
    (∀ resp n, fetchPostsBody (Except.ok resp) =
      fetchPostsBody (Except.ok { resp with statusCode := n })) := by
  refine ⟨?_, ?_, ?_, fun resp n => rfl⟩
  · rintro resp data rfl hj
    simp [runFetchPosts, fetchPostsBody, hj]
  · rintro e rfl
    simp [runFetchPosts, fetchPostsBody]
  · rintro resp e rfl hj
    simp [runFetchPosts, fetchPostsBody, hj]

/-- Claim C10 witness: a response with HTTP status 404 (`ok = false`) whose
body parses still drives the region to fulfilled. -/
theorem fetch_no_ok_check_witness :
    responseOk (HttpResponse.mk 404 (Except.ok [Post.mk 1 "a"])) = false ∧
    runFetchPosts (Except.ok (HttpResponse.mk 404 (Except.ok [Post.mk 1 "a"])))
        postInitialState =
      fulfilledReducer [Post.mk 1 "a"] (pendingReducer postInitialState) :=
  ⟨by decide,
    (fetch_no_ok_check
        (Except.ok (HttpResponse.mk 404 (Except.ok [Post.mk 1 "a"])))
        postInitialState).1
      (HttpResponse.mk 404 (Except.ok [Post.mk 1 "a"])) [Post.mk 1 "a"] rfl rfl⟩

end ReduxToolkitExample
